import Mathlib

/-!
Verification of the self-learning SQL query constructor
(`src/constructor/core.py`, class `QueryConstructor`).

Strings are modelled as `List Char` (`Str`).  Python's regular-expression
routines are embedded as executable scanners over `Str`; each scanner's doc
comment names the regex it implements.  Python `dict`s (which preserve
insertion order) are modelled as association lists.  `datetime` values are
modelled as rational "days since 2000-01-01" (the default timestamp used by
`optimize_patterns` is therefore `0`).  Python's Unicode-aware `lower()`,
`\w` and `\s` are modelled over the alphabets actually used by the program:
ASCII plus Cyrillic.
-/

namespace TrainableSql

abbrev Str := List Char

/-- The `'` character (written by code point to keep source text plain). -/
def quoteC : Char := Char.ofNat 39

/-- The opening-brace character of a placeholder. -/
def lbrace : Char := Char.ofNat 123

/-- The closing-brace character of a placeholder. -/
def rbrace : Char := Char.ofNat 125

/-- Cyrillic letters (U+0410..U+044F plus Ё/ё). -/
def isCyr (c : Char) : Bool :=
  (0x410 ≤ c.toNat && c.toNat ≤ 0x44F) || c.toNat = 0x401 || c.toNat = 0x451

/-- Python `str.lower()` restricted to ASCII and Cyrillic. -/
def lowerC (c : Char) : Char :=
  if c.isUpper then c.toLower
  else if 0x410 ≤ c.toNat ∧ c.toNat ≤ 0x42F then Char.ofNat (c.toNat + 0x20)
  else if c.toNat = 0x401 then Char.ofNat 0x451
  else c

/-- Python regex `[a-f0-9]` (the program's hex classes are lower-case). -/
def isHexLower (c : Char) : Bool := c.isDigit || ('a' ≤ c && c ≤ 'f')

/-- Python regex `\s` / `str.split()` whitespace (ASCII part). -/
def isSpaceC (c : Char) : Bool :=
  c = ' ' || c = '\t' || c = '\n' || c = '\r' || c.toNat = 11 || c.toNat = 12

/-- Python regex `\w` over ASCII and Cyrillic. -/
def isWordC (c : Char) : Bool := c.isAlphanum || c = '_' || isCyr c

/-- The punctuation characters replaced by spaces in `_extract_words`:
`?.,!;:()[]{}"'«»`. -/
def punctChars : List Char :=
  "?.,!;:()[]".data ++ [lbrace, rbrace, '"', quoteC] ++ "«»".data

/-- Split on whitespace runs, dropping empty pieces (Python `str.split()`). -/
def splitWsGo : Nat → Str → List Str
  | 0, _ => []
  | _, [] => []
  | fuel + 1, c :: rest =>
    if isSpaceC c then splitWsGo fuel rest
    else
      let p := (c :: rest).span (fun d => !(isSpaceC d))
      p.1 :: splitWsGo fuel p.2

def splitWs (s : Str) : List Str := splitWsGo s.length s

/-- Model of `re.sub(r'[a-f0-9]{32}', ' IDCREATOR ', s)`: replace every leftmost
non-overlapping run of 32 hex characters. -/
def subHex32 : Nat → Str → Str
  | 0, s => s
  | _, [] => []
  | fuel + 1, c :: rest =>
    let t := (c :: rest).take 32
    if t.length = 32 ∧ t.all isHexLower then
      " IDCREATOR ".data ++ subHex32 fuel ((c :: rest).drop 32)
    else c :: subHex32 fuel rest

/-- Match `n` hex characters at the front, returning the remainder. -/
def chunkHex (n : Nat) (s : Str) : Option Str :=
  let t := s.take n
  if t.length = n ∧ t.all isHexLower then some (s.drop n) else none

/-- Match a `-` at the front, returning the remainder. -/
def chunkDash : Str → Option Str
  | '-' :: rest => some rest
  | _ => none

/-- Match the UUID shape `[a-f0-9]{8}-[a-f0-9]{4}-[a-f0-9]{4}-[a-f0-9]{4}-[a-f0-9]{12}`
at the front of the string, returning the remainder. -/
def uuidAt (s : Str) : Option Str :=
  match chunkHex 8 s with
  | none => none
  | some r1 =>
    match chunkDash r1 with
    | none => none
    | some r2 =>
      match chunkHex 4 r2 with
      | none => none
      | some r3 =>
        match chunkDash r3 with
        | none => none
        | some r4 =>
          match chunkHex 4 r4 with
          | none => none
          | some r5 =>
            match chunkDash r5 with
            | none => none
            | some r6 =>
              match chunkHex 4 r6 with
              | none => none
              | some r7 =>
                match chunkDash r7 with
                | none => none
                | some r8 => chunkHex 12 r8

/-- Model of `re.sub` of the UUID regex with ` IDVIDEO `. -/
def subUuid : Nat → Str → Str
  | 0, s => s
  | _, [] => []
  | fuel + 1, c :: rest =>
    match uuidAt (c :: rest) with
    | some after => " IDVIDEO ".data ++ subUuid fuel after
    | none => c :: subUuid fuel rest

/-- Match `\d{4}-\d{2}-\d{2}` at the front of the string, returning the
matched text and the remainder. -/
def isoDateAt (s : Str) : Option (Str × Str) :=
  match s with
  | y1 :: y2 :: y3 :: y4 :: d1 :: m1 :: m2 :: d2 :: a1 :: a2 :: rest =>
    if y1.isDigit ∧ y2.isDigit ∧ y3.isDigit ∧ y4.isDigit ∧ d1 = '-' ∧
        m1.isDigit ∧ m2.isDigit ∧ d2 = '-' ∧ a1.isDigit ∧ a2.isDigit then
      some ([y1, y2, y3, y4, d1, m1, m2, d2, a1, a2], rest)
    else none
  | _ => none

/-- Model of `re.sub(r'\d{4}-\d{2}-\d{2}', ' ', s)`. -/
def subIsoDate : Nat → Str → Str
  | 0, s => s
  | _, [] => []
  | fuel + 1, c :: rest =>
    match isoDateAt (c :: rest) with
    | some p => ' ' :: subIsoDate fuel p.2
    | none => c :: subIsoDate fuel rest

/-- Match `\d{1,2}\s+(\w+)\s+\d{4}` at the front of the string: Python tries
the two-digit day first (greedy `{1,2}`); `\s+` and `\w+` are maximal runs
(backtracking cannot help because the classes are disjoint).  Returns the
day, month-word and year groups together with the remainder after the match. -/
def dmyAt (s : Str) : Option (Str × Str × Str × Str) :=
  let tailMatch : Str → Str → Option (Str × Str × Str × Str) := fun d rest =>
    let p1 := rest.span isSpaceC
    if p1.1 = [] then none
    else
      let p2 := p1.2.span isWordC
      if p2.1 = [] then none
      else
        let p3 := p2.2.span isSpaceC
        if p3.1 = [] then none
        else
          match p3.2 with
          | y1 :: y2 :: y3 :: y4 :: after =>
            if y1.isDigit ∧ y2.isDigit ∧ y3.isDigit ∧ y4.isDigit then
              some (d, p2.1, [y1, y2, y3, y4], after)
            else none
          | _ => none
  match s with
  | c1 :: c2 :: rest =>
    if c1.isDigit ∧ c2.isDigit then
      match tailMatch [c1, c2] rest with
      | some r => some r
      | none => tailMatch [c1] (c2 :: rest)
    else if c1.isDigit then tailMatch [c1] (c2 :: rest)
    else none
  | [c1] => if c1.isDigit then tailMatch [c1] [] else none
  | [] => none

/-- Model of `re.sub(r'\d{1,2}\s+\w+\s+\d{4}', ' ', s)`. -/
def subDmy : Nat → Str → Str
  | 0, s => s
  | _, [] => []
  | fuel + 1, c :: rest =>
    match dmyAt (c :: rest) with
    | some r => ' ' :: subDmy fuel r.2.2.2
    | none => c :: subDmy fuel rest

/-- Model of `re.sub(r'\b\d{1,4}\b', ' ', s)`: a maximal digit run of length 1–4 with
word boundaries on both sides is replaced; `prevWord` records whether the
character before the current position is a word character. -/
def subNum14 : Nat → Bool → Str → Str
  | 0, _, s => s
  | _, _, [] => []
  | fuel + 1, prevWord, c :: rest =>
    if c.isDigit ∧ prevWord = false then
      let p := (c :: rest).span Char.isDigit
      if p.1.length ≤ 4 ∧ (match p.2.head? with | none => true | some d => !(isWordC d)) = true then
        ' ' :: subNum14 fuel true p.2
      else p.1 ++ subNum14 fuel true p.2
    else c :: subNum14 fuel (isWordC c) rest

/-- Stop words of `QueryConstructor.__init__`. -/
def stop_words : List Str :=
  (["и", "в", "с", "по", "за", "у", "о", "от", "есть", "всего", "x", "id", "для", "на"]).map String.data

/-- Model of `QueryConstructor._extract_words`: lower-case, punctuation to spaces,
hex-32 tokens to ` IDCREATOR `, UUID tokens to ` IDVIDEO `, ISO dates and
"day month year" phrases to a space, standalone 1–4-digit numbers to a
space, split on whitespace, drop stop words and tokens shorter than 2. -/
def extract_words (query : Str) : Finset Str :=
  let q1 := query.map lowerC
  let q2 := q1.map (fun c => if c ∈ punctChars then ' ' else c)
  let q3 := subHex32 q2.length q2
  let q4 := subUuid q3.length q3
  let q5 := subIsoDate q4.length q4
  let q6 := subDmy q5.length q5
  let q7 := subNum14 q6.length false q6
  ((splitWs q7).filter (fun w => w ∉ stop_words ∧ 2 ≤ w.length)).toFinset

/-! ### Parameter extraction (`_extract_parameters`) -/

/-- Leftmost search for the `\d{1,2}\s+(\w+)\s+(\d{4})` date phrase,
returning the day, month and year groups. -/
def searchDmy : Str → Option (Str × Str × Str)
  | [] => none
  | c :: rest =>
    match dmyAt (c :: rest) with
    | some r => some (r.1, r.2.1, r.2.2.1)
    | none => searchDmy rest

/-- Leftmost search for `(\d{4}-\d{2}-\d{2})`. -/
def searchIsoDate : Str → Option Str
  | [] => none
  | c :: rest =>
    match isoDateAt (c :: rest) with
    | some p => some p.1
    | none => searchIsoDate rest

/-- Model of `re.findall(r'\b(\d+)\b', s)`: all maximal digit runs flanked by word
boundaries, left to right. -/
def findNumbersGo : Nat → Bool → Str → List Str
  | 0, _, _ => []
  | _, _, [] => []
  | fuel + 1, prevWord, c :: rest =>
    if c.isDigit ∧ prevWord = false then
      let p := (c :: rest).span Char.isDigit
      if (match p.2.head? with | none => true | some d => !(isWordC d)) = true then
        p.1 :: findNumbersGo fuel true p.2
      else findNumbersGo fuel true p.2
    else findNumbersGo fuel (isWordC c) rest

def findNumbers (s : Str) : List Str := findNumbersGo s.length false s

/-- Leftmost search for `[a-f0-9]{32}` (the whole match). -/
def searchHex32 : Str → Option Str
  | [] => none
  | c :: rest =>
    let t := (c :: rest).take 32
    if t.length = 32 ∧ t.all isHexLower then some t else searchHex32 rest

/-- Match `креатор[ауе]?\s+([a-f0-9]{32})` at the front, returning the whole
match (`group(0)`); the optional suffix letter is tried greedily first. -/
def creatorAt (s : Str) : Option Str :=
  if ("креатор".data).isPrefixOf s then
    let rest := s.drop 7
    let tailMatch : Str → Str → Option Str := fun opt r =>
      let p := r.span isSpaceC
      if p.1 = [] then none
      else
        let h := p.2.take 32
        if h.length = 32 ∧ h.all isHexLower then
          some ("креатор".data ++ opt ++ p.1 ++ h)
        else none
    match rest with
    | c :: r2 =>
      if c = 'а' ∨ c = 'у' ∨ c = 'е' then
        match tailMatch [c] r2 with
        | some m => some m
        | none => tailMatch [] rest
      else tailMatch [] rest
    | [] => none
  else none

def searchCreator : Str → Option Str
  | [] => none
  | c :: rest =>
    match creatorAt (c :: rest) with
    | some m => some m
    | none => searchCreator rest

/-- Match `видео\s+([a-f0-9\-]{36})` at the front, returning the whole match. -/
def videoAt (s : Str) : Option Str :=
  if ("видео".data).isPrefixOf s then
    let rest := s.drop 5
    let p := rest.span isSpaceC
    if p.1 = [] then none
    else
      let h := p.2.take 36
      if h.length = 36 ∧ h.all (fun c => isHexLower c || c = '-') then
        some ("видео".data ++ p.1 ++ h)
      else none
  else none

def searchVideo : Str → Option Str
  | [] => none
  | c :: rest =>
    match videoAt (c :: rest) with
    | some m => some m
    | none => searchVideo rest

/-- Month-name table of `_extract_parameters`. -/
def month_map : List (Str × Nat) :=
  [("января".data, 1), ("февраля".data, 2), ("марта".data, 3), ("апреля".data, 4),
   ("мая".data, 5), ("июня".data, 6), ("июля".data, 7), ("августа".data, 8),
   ("сентября".data, 9), ("октября".data, 10), ("ноября".data, 11), ("декабря".data, 12)]

def monthValue (w : Str) : Option Nat :=
  (month_map.find? (fun kv => kv.1 = w)).map Prod.snd

/-- Model of `f"{n:02d}"` for a natural number. -/
def pad2 (n : Nat) : Str :=
  if n < 10 then '0' :: (Nat.toDigits 10 n) else Nat.toDigits 10 n

/-- Digits to a natural number (Python `int` on a digit string). -/
def strToNat (s : Str) : Nat := s.foldl (fun a c => a * 10 + (c.toNat - 48)) 0

/-- The `ValueError` raised by `format('01', '02d')`: the code's fallback
month `month_map.get(..., '01')` is a *string*, and formatting a string with
the integer format code `d` raises. -/
def formatErr : String := "ValueError: Unknown format code d for object of type str"

def quoted (s : Str) : Str := quoteC :: s ++ [quoteC]

/-- The date converter for the `(\d{1,2})\s+(\w+)\s+(\d{4})` match:
`f"'{year}-{month_map.get(month,'01'):02d}-{int(day):02d}'"`.  When the
month word is not in the table the string default `'01'` is formatted with
`02d` and Python raises `ValueError`; this is modelled by `Except.error`. -/
def dmyConvert (day month year : Str) : Except String Str :=
  match monthValue month with
  | some m => .ok (quoted (year ++ '-' :: pad2 m ++ '-' :: pad2 (strToNat day)))
  | none => .error formatErr

/-- Model of `QueryConstructor._extract_parameters`.  Returns the parameter dict as an
association list in insertion order, or the uncaught `ValueError`. -/
def extract_parameters (query : Str) : Except String (List (Str × Str)) := do
  let ql := query.map lowerC
  -- date patterns, first match wins
  let dateParams : Except String (List (Str × Str)) :=
    match searchDmy ql with
    | some r => do
      let v ← dmyConvert r.1 r.2.1 r.2.2
      pure [("{DATE}".data, v)]
    | none =>
      match searchIsoDate ql with
      | some d => pure [("{DATE}".data, quoted d)]
      | none => pure []
  let ps ← dateParams
  -- numbers: findall on the *original* query text
  let nums := findNumbers query
  let ps :=
    match nums with
    | [] => ps
    | n0 :: _ =>
      ps ++ [("{NUMBER}".data, n0)] ++
        (nums.enumFrom 1).map (fun p =>
          (lbrace :: "NUMBER".data ++ (Nat.toDigits 10 p.1) ++ [rbrace], p.2))
  -- id patterns, first match wins
  let ps :=
    match searchHex32 ql with
    | some m => ps ++ [("{ID}".data, quoted m)]
    | none =>
      match searchCreator ql with
      | some m => ps ++ [("{CREATOR_ID}".data, quoted m)]
      | none =>
        match searchVideo ql with
        | some m => ps ++ [("{VIDEO_ID}".data, quoted m)]
        | none => ps
  pure ps

/-! ### Template filling (`_fill_template`) -/

/-- Python's substring test `pat in s`. -/
def isSubstr (pat : Str) : Str → Bool
  | [] => decide (pat = [])
  | c :: rest => pat.isPrefixOf (c :: rest) || isSubstr pat rest

/-- Python `s.replace(pat, repl)` for a non-empty pattern: leftmost
non-overlapping replacement of every occurrence. -/
def replaceAll (pat repl : Str) : Nat → Str → Str
  | 0, s => s
  | _, [] => []
  | fuel + 1, c :: rest =>
    if pat ≠ [] ∧ pat.isPrefixOf (c :: rest) then
      repl ++ replaceAll pat repl fuel ((c :: rest).drop pat.length)
    else c :: replaceAll pat repl fuel rest

/-- Model of `QueryConstructor._fill_template`: extract parameters from the question,
then replace each placeholder occurring in the (progressively rewritten)
SQL string. -/
def fill_template (template : Str) (query : Str) : Except String Str := do
  let params ← extract_parameters query
  pure (params.foldl
    (fun sql kv => if isSubstr kv.1 sql then replaceAll kv.1 kv.2 sql.length sql else sql)
    template)

/-! ### Fallback SQL (`_generate_fallback_sql`) -/

def containsSub (needle : String) (haystack : Str) : Bool :=
  isSubstr needle.data haystack

/-- Model of `QueryConstructor._generate_fallback_sql`. -/
def generate_fallback_sql (query : Str) : Str :=
  let ql := query.map lowerC
  if containsSub "сколько" ql || containsSub "количество" ql || containsSub "число" ql then
    if containsSub "видео" ql then "SELECT COUNT(*) FROM videos".data
    else if containsSub "снимк" ql || containsSub "снапшот" ql then
      "SELECT COUNT(*) FROM video_snapshots".data
    else "SELECT COUNT(*) FROM videos".data
  else if containsSub "сумма" ql || containsSub "суммарн" ql || containsSub "итого" ql then
    if containsSub "просмотр" ql then "SELECT SUM(views_count) FROM videos".data
    else if containsSub "лайк" ql then "SELECT SUM(likes_count) FROM videos".data
    else if containsSub "комментар" ql then "SELECT SUM(comments_count) FROM videos".data
    else "SELECT * FROM videos LIMIT 10".data
  else "SELECT * FROM videos LIMIT 10".data

/-! ### SQL generalization (`_generalize_sql`) -/

/-- Model of `re.sub(r"'[^']*'", "'{VALUE}'", s)`: every pair of single quotes and the
non-quote text between them is replaced (a trailing unpaired quote stays). -/
def subQuotedValue : Nat → Str → Str
  | 0, s => s
  | _, [] => []
  | fuel + 1, c :: rest =>
    if c = quoteC then
      let p := rest.span (fun d => !(d = quoteC))
      match p.2 with
      | _ :: r3 => quoted ("{VALUE}".data) ++ subQuotedValue fuel r3
      | [] => c :: subQuotedValue fuel rest
    else c :: subQuotedValue fuel rest

/-- Model of `re.sub(r'\b\d+\b', '{NUMBER}', s)`. -/
def subNumAll : Nat → Bool → Str → Str
  | 0, _, s => s
  | _, _, [] => []
  | fuel + 1, prevWord, c :: rest =>
    if c.isDigit ∧ prevWord = false then
      let p := (c :: rest).span Char.isDigit
      if (match p.2.head? with | none => true | some d => !(isWordC d)) = true then
        "{NUMBER}".data ++ subNumAll fuel true p.2
      else p.1 ++ subNumAll fuel true p.2
    else c :: subNumAll fuel (isWordC c) rest

/-- Match `'\d{4}-\d{2}-\d{2}'` at the front, returning the remainder. -/
def quotedDateAt (s : Str) : Option Str :=
  match s with
  | q1 :: rest =>
    if q1 = quoteC then
      match isoDateAt rest with
      | some p =>
        match p.2 with
        | q2 :: r2 => if q2 = quoteC then some r2 else none
        | [] => none
      | none => none
    else none
  | [] => none

/-- Model of `re.sub(r"'\d{4}-\d{2}-\d{2}'", "'{DATE}'", s)`. -/
def subQuotedDate : Nat → Str → Str
  | 0, s => s
  | _, [] => []
  | fuel + 1, c :: rest =>
    match quotedDateAt (c :: rest) with
    | some after => quoted ("{DATE}".data) ++ subQuotedDate fuel after
    | none => c :: subQuotedDate fuel rest

/-- Match `\d{2}:\d{2}:\d{2}` at the front, returning the remainder. -/
def timeAt (s : Str) : Option Str :=
  match s with
  | h1 :: h2 :: c1 :: m1 :: m2 :: c2 :: s1 :: s2 :: rest =>
    if h1.isDigit ∧ h2.isDigit ∧ c1 = ':' ∧ m1.isDigit ∧ m2.isDigit ∧ c2 = ':' ∧
        s1.isDigit ∧ s2.isDigit then some rest
    else none
  | _ => none

/-- Match `'\d{4}-\d{2}-\d{2} \d{2}:\d{2}:\d{2}'` at the front. -/
def quotedTimestampAt (s : Str) : Option Str :=
  match s with
  | q1 :: rest =>
    if q1 = quoteC then
      match isoDateAt rest with
      | some p =>
        match p.2 with
        | sp :: r2 =>
          if sp = ' ' then
            match timeAt r2 with
            | some r3 =>
              match r3 with
              | q2 :: r4 => if q2 = quoteC then some r4 else none
              | [] => none
            | none => none
          else none
        | [] => none
      | none => none
    else none
  | [] => none

/-- Model of `re.sub(r"'\d{4}-\d{2}-\d{2} \d{2}:\d{2}:\d{2}'", "'{TIMESTAMP}'", s)`. -/
def subQuotedTimestamp : Nat → Str → Str
  | 0, s => s
  | _, [] => []
  | fuel + 1, c :: rest =>
    match quotedTimestampAt (c :: rest) with
    | some after => quoted ("{TIMESTAMP}".data) ++ subQuotedTimestamp fuel after
    | none => c :: subQuotedTimestamp fuel rest

/-- Model of `QueryConstructor._generalize_sql`, with the substitutions applied in the
code's order: quoted strings to `'{VALUE}'`, then standalone integers to
`{NUMBER}`, then quoted dates to `'{DATE}'`, then quoted timestamps to
`'{TIMESTAMP}'`. -/
def generalize_sql (sql : Str) : Str :=
  let t1 := subQuotedValue sql.length sql
  let t2 := subNumAll t1.length false t1
  let t3 := subQuotedDate t2.length t2
  subQuotedTimestamp t3.length t3

/-! ### Data model

`_make_pattern_key` hashes `" ".join(sorted(words))` with MD5 and keeps 16
hex characters; since the hash input determines, and is determined by, the
word set, the key is modelled by the word set itself (MD5 collisions aside,
which the spec requires not to merge patterns).  Pattern dicts and the three
stores follow `core.py`; the unused-for-matching `word_index` is omitted
(it is only written, never read, by the modelled operations). -/

abbrev PKey := Finset Str

structure Pattern where
  words : Finset Str
  template : Str
  count : Nat
  examples : List Str
  source : String
  created_at : ℚ
  last_used : Option ℚ
deriving DecidableEq

structure EngineStats where
  total_queries : Nat
  exact_hits : Nat
  pattern_hits : Nat
  llm_calls : Nat
  corrections : Nat
  auto_learned : Nat
deriving DecidableEq

def stats0 : EngineStats := ⟨0, 0, 0, 0, 0, 0⟩

/-- The diff record of `_compute_sql_diff`. -/
structure SqlDiff where
  same_structure : Bool
  length_diff : ℤ
  tables_changed : Nat
deriving DecidableEq

structure CorrectionRecord where
  original_query : Str
  llm_sql : Str
  corrected_sql : Str
  user_feedback : Option Str
  timestamp : ℚ
  diff : SqlDiff
deriving DecidableEq

structure ConstructorState where
  exact_cache : List (Str × Str)
  patterns : List (PKey × Pattern)
  corrections_log : List CorrectionRecord
  stats : EngineStats
deriving DecidableEq

def emptyState : ConstructorState := ⟨[], [], [], stats0⟩

/-- The response of the external LLM generator (`sql_result`). -/
structure LLMRes where
  sql : Option Str
  confidence : Option ℚ
  metadata : Option (List (String × String))
deriving DecidableEq

/-- The dict returned by `process_query`; absent dict keys are `none`. -/
structure ProcResult where
  sql : Str
  source : String
  needs_validation : Bool
  pattern_id : Option PKey := none
  confidence : Option ℚ := none
  llm_metadata : Option (List (String × String)) := none
  warning : Option String := none
deriving DecidableEq

/-! ### Association-list (Python dict) helpers -/

/-- Dict lookup (`d[k]` / `k in d`). -/
def alookup (k : Str) : List (Str × Str) → Option Str
  | [] => none
  | kv :: rest => if kv.1 = k then some kv.2 else alookup k rest

/-- Dict assignment `d[k] = v`: overwrite in place or append. -/
def cache_put (k v : Str) : List (Str × Str) → List (Str × Str)
  | [] => [(k, v)]
  | kv :: rest => if kv.1 = k then (k, v) :: rest else kv :: cache_put k v rest

/-- Is `k` a key of the pattern dict? -/
def hasKey (k : PKey) (ps : List (PKey × Pattern)) : Bool :=
  ps.any (fun kv => decide (kv.1 = k))

/-- In-place mutation of the pattern stored under key `k`. -/
def update_pattern (k : PKey) (f : Pattern → Pattern) :
    List (PKey × Pattern) → List (PKey × Pattern)
  | [] => []
  | kv :: rest => if kv.1 = k then (kv.1, f kv.2) :: rest else kv :: update_pattern k f rest

/-! ### Pattern scoring and retrieval (`_find_pattern`) -/

/-- Model of `coverage = len(common) / len(pattern_words)`. -/
def coverage (words : Finset Str) (p : Pattern) : ℚ :=
  ((words ∩ p.words).card : ℚ) / (p.words.card : ℚ)

/-- Model of `recall = len(common) / len(words) if words else 0`. -/
def recallQ (words : Finset Str) (p : Pattern) : ℚ :=
  if words = ∅ then 0 else ((words ∩ p.words).card : ℚ) / (words.card : ℚ)

/-- Model of `score = (coverage * 0.6) + (recall * 0.4)`. -/
def patternScore (words : Finset Str) (p : Pattern) : ℚ :=
  coverage words p * 0.6 + recallQ words p * 0.4

/-- The loop of `_find_pattern`: iterate over the dict in insertion order,
skip patterns with empty intersection, keep the strictly best accepted
candidate (`score > best_score and score > 0.5`). -/
def find_patternGo (words : Finset Str) :
    List (PKey × Pattern) → Option (PKey × Pattern) → ℚ → Option (PKey × Pattern)
  | [], best, _ => best
  | kv :: rest, best, best_score =>
    if words ∩ kv.2.words = ∅ then find_patternGo words rest best best_score
    else
      let score := patternScore words kv.2
      if best_score < score ∧ (0.5 : ℚ) < score then find_patternGo words rest (some kv) score
      else find_patternGo words rest best best_score

/-- Model of `QueryConstructor._find_pattern` (also returning the dict key of the
found pattern, which the Python code reaches by object reference). -/
def find_pattern (words : Finset Str) (ps : List (PKey × Pattern)) : Option (PKey × Pattern) :=
  if words = ∅ then none else find_patternGo words ps none 0

/-! ### Learning -/

/-- Model of `QueryConstructor._learn_from_example` (effect on the pattern dict);
`now` is `datetime.now()` in days since 2000-01-01. -/
def learn_from_example (query sql : Str) (words : Finset Str) (source : String) (now : ℚ)
    (ps : List (PKey × Pattern)) : List (PKey × Pattern) :=
  if words = ∅ then ps
  else
    let key : PKey := words
    if hasKey key ps then
      update_pattern key
        (fun p => { p with
          count := p.count + 1,
          examples := p.examples ++ [query],
          last_used := some now }) ps
    else
      ps ++ [(key, { words := words, template := sql, count := 1, examples := [query],
                     source := source, created_at := now, last_used := some now })]

/-- Model of `QueryConstructor.learn_from_success`. -/
def learn_from_success (st : ConstructorState) (user_query sql : Str) (now : ℚ) :
    ConstructorState :=
  let words := extract_words user_query
  let cache' := cache_put user_query sql st.exact_cache
  let patterns' :=
    match find_pattern words st.patterns with
    | some _ => st.patterns
    | none => learn_from_example user_query (generalize_sql sql) words "success" now st.patterns
  { st with exact_cache := cache', patterns := patterns',
            stats := { st.stats with auto_learned := st.stats.auto_learned + 1 } }

/-- Python `str.strip()` (whitespace both ends). -/
def stripWs (s : Str) : Str :=
  ((s.dropWhile isSpaceC).reverse.dropWhile isSpaceC).reverse

/-- Match `FROM\s+(\w+)` (with `re.IGNORECASE`) at the front, returning the
captured table name and the remainder after the match. -/
def fromTableAt (s : Str) : Option (Str × Str) :=
  if (s.take 4).map lowerC = "from".data then
    let r := s.drop 4
    let p := r.span isSpaceC
    if p.1 = [] then none
    else
      let w := p.2.span isWordC
      if w.1 = [] then none else some (w.1, w.2)
  else none

/-- Model of `re.findall(r'FROM\s+(\w+)', s, re.IGNORECASE)`. -/
def fromTablesGo : Nat → Str → List Str
  | 0, _ => []
  | _, [] => []
  | fuel + 1, c :: rest =>
    match fromTableAt (c :: rest) with
    | some r => r.1 :: fromTablesGo fuel r.2
    | none => fromTablesGo fuel rest

def fromTables (s : Str) : List Str := fromTablesGo s.length s

/-- Model of `QueryConstructor._compute_sql_diff`. -/
def compute_sql_diff (sql1 sql2 : Str) : SqlDiff :=
  { same_structure := decide ((stripWs sql1).map lowerC = (stripWs sql2).map lowerC),
    length_diff := (sql2.length : ℤ) - (sql1.length : ℤ),
    tables_changed := ((fromTables sql2).toFinset \ (fromTables sql1).toFinset).card }

/-- Model of `QueryConstructor.learn_from_correction`. -/
def learn_from_correction (st : ConstructorState)
    (original_query llm_sql corrected_sql : Str) (user_feedback : Option Str) (now : ℚ) :
    ConstructorState :=
  let record : CorrectionRecord :=
    { original_query := original_query, llm_sql := llm_sql, corrected_sql := corrected_sql,
      user_feedback := user_feedback, timestamp := now,
      diff := compute_sql_diff llm_sql corrected_sql }
  let words := extract_words original_query
  let generalized := generalize_sql corrected_sql
  { st with
    corrections_log := st.corrections_log ++ [record],
    patterns := learn_from_example original_query generalized words "correction" now st.patterns,
    exact_cache := cache_put original_query corrected_sql st.exact_cache,
    stats := { st.stats with corrections := st.stats.corrections + 1 } }

/-! ### The resolver (`process_query`) -/

/-- Model of `QueryConstructor.process_query`.  The external generator is modelled by
`llm_enabled` (`self.llm and self.config.LLM_ENABLED`) and `llm_response`
(the awaited `sql_result`).  The `ValueError` that `_fill_template` can
raise propagates as `Except.error`, with all state mutations made before
the raise retained. -/
def process_query (st : ConstructorState) (user_query : Str)
    (llm_enabled : Bool) (llm_response : Option LLMRes) :
    Except String ProcResult × ConstructorState :=
  let st := { st with stats := { st.stats with total_queries := st.stats.total_queries + 1 } }
  match alookup user_query st.exact_cache with
  | some sql =>
    (.ok { sql := sql, source := "exact_cache", needs_validation := false },
     { st with stats := { st.stats with exact_hits := st.stats.exact_hits + 1 } })
  | none =>
    let words := extract_words user_query
    match find_pattern words st.patterns with
    | some kp =>
      let st := { st with stats := { st.stats with pattern_hits := st.stats.pattern_hits + 1 } }
      match fill_template kp.2.template user_query with
      | .error e => (.error e, st)
      | .ok sql =>
        let patterns' := update_pattern kp.1 (fun p => { p with count := p.count + 1 }) st.patterns
        let st := { st with patterns := patterns' }
        let st :=
          if lbrace ∉ sql then { st with exact_cache := cache_put user_query sql st.exact_cache }
          else st
        let incremented := { kp.2 with count := kp.2.count + 1 }
        (.ok { sql := sql, source := "pattern", needs_validation := true,
               pattern_id := (patterns'.find? (fun kv => decide (kv.2 = incremented))).map Prod.fst },
         st)
    | none =>
      let fallback : ConstructorState → Except String ProcResult × ConstructorState := fun st =>
        (.ok { sql := generate_fallback_sql user_query, source := "fallback",
               needs_validation := true, warning := some "Could not generate optimal SQL" }, st)
      if llm_enabled then
        let st := { st with stats := { st.stats with llm_calls := st.stats.llm_calls + 1 } }
        match llm_response with
        | some r =>
          match r.sql with
          | some s =>
            if s ≠ [] then
              (.ok { sql := s, source := "llm", needs_validation := true,
                     confidence := some (r.confidence.getD 0.5),
                     llm_metadata := some (r.metadata.getD []) }, st)
            else fallback st
          | none => fallback st
        | none => fallback st
      else fallback st

/-! ### Maintenance -/

/-- Model of `QueryConstructor.optimize_patterns`: evict patterns with
`days_since_use > 30 and count < 3`, where `last_used` defaults to
2000-01-01 (day 0) and `timedelta.days` floors the difference. -/
def shouldEvict (now : ℚ) (kv : PKey × Pattern) : Prop :=
  30 < Rat.floor (now - (kv.2.last_used.getD 0)) ∧ kv.2.count < 3

instance (now : ℚ) (kv : PKey × Pattern) : Decidable (shouldEvict now kv) := by
  unfold shouldEvict; infer_instance

def optimize_patterns (st : ConstructorState) (now : ℚ) : ConstructorState :=
  { st with patterns := st.patterns.filter (fun kv => !(decide (shouldEvict now kv))) }

/-- The five `(question, sql)` seeds of `_preload_basic_patterns`. -/
def basic_patterns : List (Str × Str) :=
  [("Сколько всего записей в таблице?".data,
    "SELECT COUNT(*) FROM {table}".data),
   ("Сколько записей где поле равно значению?".data,
    "SELECT COUNT(*) FROM {table} WHERE {field} = {value}".data),
   ("Сумма значений в поле".data,
    "SELECT SUM({field}) FROM {table}".data),
   ("Среднее значение поля".data,
    "SELECT AVG({field}) FROM {table}".data),
   ("Статистика по дням".data,
    "SELECT DATE({date_field}), COUNT(*) FROM {table} GROUP BY DATE({date_field}) ORDER BY DATE({date_field})".data)]

/-- One insertion step of `_preload_basic_patterns`: insert the seed if its
key is absent, with `count = 0`, no examples and *no* `last_used` field. -/
def preload_step (now : ℚ) (ps : List (PKey × Pattern)) (qs : Str × Str) :
    List (PKey × Pattern) :=
  let words := extract_words qs.1
  let key : PKey := words
  if hasKey key ps then ps
  else
    let newp : Pattern :=
      { words := words,
        template := qs.2,
        count := 0,
        examples := [],
        source := "schema_preload",
        created_at := now,
        last_used := none }
    ps ++ [(key, newp)]

def preload_basic_patterns (now : ℚ) (st : ConstructorState) : ConstructorState :=
  { st with patterns := basic_patterns.foldl (preload_step now) st.patterns }

/-! ### Operation sequences (for store invariants) -/

/-- One public mutating operation of the engine. -/
inductive Op where
  | proc (q : Str) (llm_enabled : Bool) (llm_response : Option LLMRes)
  | learnS (q sql : Str) (now : ℚ)
  | learnC (q llm_sql corrected_sql : Str) (fb : Option Str) (now : ℚ)

def run_op (st : ConstructorState) : Op → ConstructorState
  | .proc q e r => (process_query st q e r).2
  | .learnS q s t => learn_from_success st q s t
  | .learnC q l c fb t => learn_from_correction st q l c fb t

def run_ops (st : ConstructorState) (ops : List Op) : ConstructorState :=
  ops.foldl run_op st

/-- The SQL argument handed to a learning operation (none for `process_query`). -/
def op_learned_sql : Op → Option Str
  | .proc _ _ _ => none
  | .learnS _ s _ => some s
  | .learnC _ _ c _ _ => some c

/-- Predicate "no unresolved placeholder" for the exact cache: no stored value
contains a `{`. -/
def cache_inv (st : ConstructorState) : Prop :=
  ∀ kv ∈ st.exact_cache, lbrace ∉ kv.2

deriving instance DecidableEq for Except

/-! ### Concrete fixtures used by the claim theorems below -/

/-- Whether the SQL argument handed to a learning operation is
placeholder-free (`process_query` has no SQL argument). -/
def op_sql_ok : Op → Prop
  | .proc _ _ _ => True
  | .learnS _ s _ => lbrace ∉ s
  | .learnC _ _ c _ _ => lbrace ∉ c

instance (op : Op) : Decidable (op_sql_ok op) := by
  cases op <;> simp only [op_sql_ok] <;> infer_instance

def p5 : Pattern :=
  { words := {"aa".data}, template := "SELECT 1".data, count := 1, examples := [],
    source := "success", created_at := 0, last_used := some 0 }

def p5b : Pattern :=
  { words := {"zz".data}, template := "SELECT 2".data, count := 1, examples := [],
    source := "success", created_at := 0, last_used := some 0 }

def p6a : Pattern :=
  { words := {"aa".data, "bb".data}, template := "SELECT 1".data, count := 1,
    examples := [], source := "success", created_at := 0, last_used := some 1 }

def p6b : Pattern :=
  { words := {"aa".data, "cc".data}, template := "SELECT 2".data, count := 1,
    examples := [], source := "success", created_at := 0, last_used := some 100 }

def w6 : Finset Str := {"aa".data, "bb".data, "cc".data}

def ps6 : List (PKey × Pattern) := [(p6a.words, p6a), (p6b.words, p6b)]

def c2pat : Pattern :=
  { words := {"сколько".data, "видео".data},
    template := "SELECT COUNT(*) FROM videos WHERE created_at > ".data ++ quoted "{DATE}".data,
    count := 1, examples := [], source := "success", created_at := 0, last_used := some 0 }

def c2state : ConstructorState := { emptyState with patterns := [(c2pat.words, c2pat)] }

def c2query : Str := "сколько видео 7 qqq 2024".data

def p9a : Pattern :=
  { words := {"k1".data}, template := "SELECT 1".data, count := 1,
    examples := [], source := "success", created_at := 0, last_used := some 0 }

def p9b : Pattern :=
  { words := {"k2".data}, template := "SELECT 2".data, count := 5,
    examples := [], source := "success", created_at := 0, last_used := some 0 }

def st9 : ConstructorState :=
  { emptyState with patterns := [(p9a.words, p9a), (p9b.words, p9b)] }


/-! ## Helper lemmas -/

theorem alookup_cache_put (k v : Str) (c : List (Str × Str)) :
    alookup k (cache_put k v c) = some v := by
  induction c with
  | nil => simp [cache_put, alookup]
  | cons kv rest ih =>
    by_cases h : kv.1 = k
    · simp [cache_put, alookup, h]
    · simp [cache_put, alookup, h, ih]

theorem mem_cache_put (k v : Str) (c : List (Str × Str)) (kv : Str × Str)
    (h : kv ∈ cache_put k v c) : kv = (k, v) ∨ kv ∈ c := by
  induction c with
  | nil => simpa [cache_put] using h
  | cons hd rest ih =>
    by_cases hk : hd.1 = k
    · rw [cache_put, if_pos hk] at h
      rcases List.mem_cons.mp h with h1 | h2
      · exact Or.inl h1
      · exact Or.inr (List.mem_cons_of_mem hd h2)
    · rw [cache_put, if_neg hk] at h
      rcases List.mem_cons.mp h with h1 | h2
      · exact Or.inr (h1 ▸ List.mem_cons_self hd rest)
      · rcases ih h2 with h3 | h4
        · exact Or.inl h3
        · exact Or.inr (List.mem_cons_of_mem hd h4)

theorem patternScore_of_inter_empty {w : Finset Str} {p : Pattern}
    (h : w ∩ p.words = ∅) : patternScore w p = 0 := by
  unfold patternScore coverage recallQ
  rw [h]
  split <;> simp

theorem patternScore_of_words_eq {w : Finset Str} {p : Pattern}
    (hne : w.Nonempty) (h : p.words = w) : patternScore w p = 1 := by
  have hc : (w.card : ℚ) ≠ 0 := by
    exact_mod_cast Finset.card_ne_zero_of_mem hne.choose_spec
  unfold patternScore coverage recallQ
  rw [h, Finset.inter_self, if_neg (Finset.nonempty_iff_ne_empty.mp hne)]
  rw [div_self hc]
  norm_num

theorem find_patternGo_stays_some (w : Finset Str) (ps : List (PKey × Pattern))
    (kp : PKey × Pattern) (bs : ℚ) :
    ∃ r, find_patternGo w ps (some kp) bs = some r := by
  induction ps generalizing kp bs with
  | nil => exact ⟨kp, rfl⟩
  | cons kv rest ih =>
    simp only [find_patternGo]
    split
    · exact ih kp bs
    · split
      · exact ih kv (patternScore w kv.2)
      · exact ih kp bs

theorem find_patternGo_skip (w : Finset Str) (ps : List (PKey × Pattern))
    (best : Option (PKey × Pattern)) (bs : ℚ)
    (h : ∀ kv ∈ ps, w ∩ kv.2.words = ∅) :
    find_patternGo w ps best bs = best := by
  induction ps generalizing best bs with
  | nil => rfl
  | cons kv rest ih =>
    simp only [find_patternGo]
    rw [if_pos (h kv (List.mem_cons_self kv rest))]
    exact ih best bs (fun x hx => h x (List.mem_cons_of_mem kv hx))

theorem find_patternGo_finds (w : Finset Str) (ps : List (PKey × Pattern))
    (best : Option (PKey × Pattern)) (bs : ℚ)
    (h : ∃ kv ∈ ps, bs < patternScore w kv.2 ∧ (0.5 : ℚ) < patternScore w kv.2) :
    ∃ r, find_patternGo w ps best bs = some r := by
  induction ps generalizing best bs with
  | nil =>
    obtain ⟨x, hx, _⟩ := h
    exact absurd hx (List.not_mem_nil x)
  | cons kv rest ih =>
    obtain ⟨x, hx, h1, h2⟩ := h
    simp only [find_patternGo]
    by_cases hint : w ∩ kv.2.words = ∅
    · rw [if_pos hint]
      apply ih
      rcases List.mem_cons.mp hx with rfl | hxr
      · exfalso
        rw [patternScore_of_inter_empty hint] at h2
        norm_num at h2
      · exact ⟨x, hxr, h1, h2⟩
    · rw [if_neg hint]
      by_cases hcond : bs < patternScore w kv.2 ∧ (0.5 : ℚ) < patternScore w kv.2
      · rw [if_pos hcond]
        exact find_patternGo_stays_some w rest kv (patternScore w kv.2)
      · rw [if_neg hcond]
        apply ih
        rcases List.mem_cons.mp hx with rfl | hxr
        · exact absurd ⟨h1, h2⟩ hcond
        · exact ⟨x, hxr, h1, h2⟩

theorem find_pattern_isSome_of_scored (w : Finset Str) (ps : List (PKey × Pattern))
    (hw : w ≠ ∅) (h : ∃ kv ∈ ps, (0.5 : ℚ) < patternScore w kv.2) :
    ∃ r, find_pattern w ps = some r := by
  unfold find_pattern
  rw [if_neg hw]
  obtain ⟨kv, hm, hs⟩ := h
  exact find_patternGo_finds w ps none 0 ⟨kv, hm, by linarith, hs⟩

/-- The accumulator invariant and result characterization of the
`_find_pattern` loop: the returned candidate is the first pattern (in dict
insertion order) attaining the maximal accepted score. -/
theorem find_patternGo_spec (w : Finset Str) (ps : List (PKey × Pattern)) :
    ∀ (best : Option (PKey × Pattern)) (bs : ℚ),
      ((best = none ∧ bs = 0) ∨
        (∃ b, best = some b ∧ bs = patternScore w b.2 ∧ (0.5 : ℚ) < bs)) →
      ∀ kp, find_patternGo w ps best bs = some kp →
        ((best = some kp ∧ bs = patternScore w kp.2 ∧ (0.5 : ℚ) < bs ∧
            ∀ kv ∈ ps, patternScore w kv.2 ≤ patternScore w kp.2) ∨
          (∃ pre post, ps = pre ++ kp :: post ∧ bs < patternScore w kp.2 ∧
            (0.5 : ℚ) < patternScore w kp.2 ∧
            (∀ kv ∈ pre, patternScore w kv.2 < patternScore w kp.2) ∧
            (∀ kv ∈ post, patternScore w kv.2 ≤ patternScore w kp.2))) := by
  induction ps with
  | nil =>
    intro best bs hinv kp hrun
    rcases hinv with ⟨hb, _⟩ | ⟨b, hb, hbs, h05⟩
    · rw [find_patternGo, hb] at hrun; exact absurd hrun (by simp)
    · left
      rw [find_patternGo] at hrun
      rw [hb] at hrun ⊢
      obtain rfl : b = kp := by injection hrun
      exact ⟨rfl, hbs, h05, by simp⟩
  | cons kv rest ih =>
    intro best bs hinv kp hrun
    simp only [find_patternGo] at hrun
    by_cases hint : w ∩ kv.2.words = ∅
    · rw [if_pos hint] at hrun
      have hkv0 : patternScore w kv.2 = 0 := patternScore_of_inter_empty hint
      rcases ih best bs hinv kp hrun with ⟨h1, h2, h3, h4⟩ | ⟨pre, post, heq, h1, h2, h3, h4⟩
      · left
        refine ⟨h1, h2, h3, ?_⟩
        intro x hx
        rcases List.mem_cons.mp hx with rfl | hxr
        · rw [hkv0, ← h2]; linarith
        · exact h4 x hxr
      · right
        refine ⟨kv :: pre, post, by rw [heq, List.cons_append], h1, h2, ?_, h4⟩
        intro x hx
        rcases List.mem_cons.mp hx with rfl | hxr
        · rw [hkv0]; linarith
        · exact h3 x hxr
    · rw [if_neg hint] at hrun
      by_cases hcond : bs < patternScore w kv.2 ∧ (0.5 : ℚ) < patternScore w kv.2
      · rw [if_pos hcond] at hrun
        have hinv2 : (((some kv : Option (PKey × Pattern)) = none ∧ patternScore w kv.2 = 0) ∨
            (∃ b, (some kv : Option (PKey × Pattern)) = some b ∧
              patternScore w kv.2 = patternScore w b.2 ∧
              (0.5 : ℚ) < patternScore w kv.2)) :=
          Or.inr ⟨kv, rfl, rfl, hcond.2⟩
        rcases ih (some kv) (patternScore w kv.2) hinv2 kp hrun with
          ⟨h1, h2, _, h4⟩ | ⟨pre, post, heq, h1, h2, h3, h4⟩
        · obtain rfl : kv = kp := by injection h1
          right
          exact ⟨[], rest, by simp, hcond.1, hcond.2, by simp, h4⟩
        · right
          refine ⟨kv :: pre, post, by rw [heq, List.cons_append], by linarith, h2, ?_, h4⟩
          intro x hx
          rcases List.mem_cons.mp hx with rfl | hxr
          · exact h1
          · exact h3 x hxr
      · rw [if_neg hcond] at hrun
        have hle : patternScore w kv.2 ≤ bs ∨ patternScore w kv.2 ≤ (0.5 : ℚ) := by
          rcases not_and_or.mp hcond with h | h
          · exact Or.inl (le_of_not_lt h)
          · exact Or.inr (le_of_not_lt h)
        rcases ih best bs hinv kp hrun with ⟨h1, h2, h3, h4⟩ | ⟨pre, post, heq, h1, h2, h3, h4⟩
        · left
          refine ⟨h1, h2, h3, ?_⟩
          intro x hx
          rcases List.mem_cons.mp hx with rfl | hxr
          · rcases hle with h | h
            · rw [← h2]; exact h
            · rw [← h2]; linarith
          · exact h4 x hxr
        · right
          refine ⟨kv :: pre, post, by rw [heq, List.cons_append], h1, h2, ?_, h4⟩
          intro x hx
          rcases List.mem_cons.mp hx with rfl | hxr
          · rcases hle with h | h
            · linarith
            · linarith
          · exact h3 x hxr

/-- Retrieval order: `_find_pattern` returns the first pattern attaining the maximal score
among candidates scoring above `0.5`. -/
theorem find_pattern_spec (w : Finset Str) (ps : List (PKey × Pattern))
    (kp : PKey × Pattern) (h : find_pattern w ps = some kp) :
    ∃ pre post, ps = pre ++ kp :: post ∧ (0.5 : ℚ) < patternScore w kp.2 ∧
      (∀ kv ∈ pre, patternScore w kv.2 < patternScore w kp.2) ∧
      (∀ kv ∈ post, patternScore w kv.2 ≤ patternScore w kp.2) := by
  unfold find_pattern at h
  by_cases hw : w = ∅
  · rw [if_pos hw] at h; exact absurd h (by simp)
  · rw [if_neg hw] at h
    rcases find_patternGo_spec w ps none 0 (Or.inl ⟨rfl, rfl⟩) kp h with
      ⟨h1, _⟩ | ⟨pre, post, heq, _, h2, h3, h4⟩
    · exact absurd h1 (by simp)
    · exact ⟨pre, post, heq, h2, h3, h4⟩

/-! ## Claim theorems -/

/-- C1.  Exact-cache precedence: whenever the exact cache maps the verbatim
question `q` to `s`, `process_query` returns `source = "exact_cache"` with
exactly that SQL, whatever the pattern store holds and whatever the
generator's availability or response. -/
theorem c1_exact_cache_precedence (st : ConstructorState) (q s : Str)
    (e : Bool) (r : Option LLMRes) (h : alookup q st.exact_cache = some s) :
    (process_query st q e r).1 =
      .ok { sql := s, source := "exact_cache", needs_validation := false } := by
  unfold process_query
  simp only [h]

/-- C1 witness. -/
theorem c1_witness :
    alookup ("q".data) [("q".data, "SELECT 1".data)] = some ("SELECT 1".data) ∧
    (process_query { emptyState with exact_cache := [("q".data, "SELECT 1".data)] }
        ("q".data) true none).1 =
      .ok { sql := "SELECT 1".data, source := "exact_cache", needs_validation := false } :=
  ⟨by decide,
   c1_exact_cache_precedence
     { emptyState with exact_cache := [("q".data, "SELECT 1".data)] }
     ("q".data) ("SELECT 1".data) true none (by decide)⟩

/-- C3.  The generalizer applies the `'...'` → `'{VALUE}'` substitution
*first*, so a SQL statement with a quoted ISO date literal generalizes to
`'{VALUE}'` at that position and not to `'{DATE}'` (the date and timestamp
substitutions run after every quoted literal is already gone). -/
theorem c3_generalize_date_becomes_value :
    generalize_sql ("SELECT * FROM videos WHERE created_at = ".data ++ quoted "2024-01-02".data)
      = "SELECT * FROM videos WHERE created_at = ".data ++ quoted "{VALUE}".data ∧
    isSubstr ("{DATE}".data)
      (generalize_sql
        ("SELECT * FROM videos WHERE created_at = ".data ++ quoted "2024-01-02".data)) = false := by
  decide

/-- C7.  The generic 32-hex rule is tried before the creator rule and
matches any 32-hex token, so a question with a creator word followed by a
32-hex identifier yields `{ID}` and never `{CREATOR_ID}`. -/
theorem c7_creator_id_unreachable :
    extract_parameters ("сколько видео у креатора 0123456789abcdef0123456789abcdef".data)
      = .ok [("{ID}".data, quoted "0123456789abcdef0123456789abcdef".data)] ∧
    (∀ kv ∈ [("{ID}".data, quoted "0123456789abcdef0123456789abcdef".data)],
      kv.1 ≠ "{CREATOR_ID}".data) := by
  decide

/-- C4 counterexample.  For a question whose feature set is empty (a lone
stop word), two `learn_from_success` calls leave *zero* patterns for the
question's trigger-word set, not exactly one; the exact-cache half of the
claim does hold. -/
theorem c4_counterexample :
    (learn_from_success (learn_from_success emptyState ("и".data) ("SELECT 1".data) 0)
        ("и".data) ("SELECT 1".data) 0).patterns = [] ∧
    alookup ("и".data)
      (learn_from_success (learn_from_success emptyState ("и".data) ("SELECT 1".data) 0)
        ("и".data) ("SELECT 1".data) 0).exact_cache = some ("SELECT 1".data) := by
  decide

theorem hasKey_iff (k : PKey) (ps : List (PKey × Pattern)) :
    hasKey k ps = true ↔ ∃ kv ∈ ps, kv.1 = k := by
  unfold hasKey
  rw [List.any_eq_true]
  constructor
  · rintro ⟨kv, hm, hd⟩
    exact ⟨kv, hm, of_decide_eq_true hd⟩
  · rintro ⟨kv, hm, hd⟩
    exact ⟨kv, hm, decide_eq_true hd⟩

theorem lfs_exact_cache (st : ConstructorState) (q s : Str) (t : ℚ) :
    (learn_from_success st q s t).exact_cache = cache_put q s st.exact_cache := rfl

theorem lfs_patterns_of_some (st : ConstructorState) (q s : Str) (t : ℚ)
    (kp : PKey × Pattern) (h : find_pattern (extract_words q) st.patterns = some kp) :
    (learn_from_success st q s t).patterns = st.patterns := by
  unfold learn_from_success
  simp only [h]

theorem lfs_patterns_of_none (st : ConstructorState) (q s : Str) (t : ℚ)
    (h : find_pattern (extract_words q) st.patterns = none) :
    (learn_from_success st q s t).patterns =
      learn_from_example q (generalize_sql s) (extract_words q) "success" t st.patterns := by
  unfold learn_from_success
  simp only [h]

/-- C4 (amended).  Two successive `learn_from_success(q, s)` calls leave the
exact cache mapping `q` to `s`, and the second call changes the pattern
store in no way; when `q`'s feature set is non-empty and no stored pattern
matched it beforehand, exactly one pattern keyed by `q`'s trigger-word set
remains.  (`hkeys` is the key-consistency invariant of the store: every
dict key is the hash key of its pattern's word set.) -/
theorem c4_learn_idempotent (st : ConstructorState) (q s : Str) (t1 t2 : ℚ)
    (hkeys : ∀ kv ∈ st.patterns, kv.1 = kv.2.words) :
    alookup q (learn_from_success (learn_from_success st q s t1) q s t2).exact_cache = some s ∧
    (learn_from_success (learn_from_success st q s t1) q s t2).patterns =
      (learn_from_success st q s t1).patterns ∧
    (extract_words q ≠ ∅ → find_pattern (extract_words q) st.patterns = none →
      ((learn_from_success (learn_from_success st q s t1) q s t2).patterns.countP
        (fun kv => decide (kv.1 = extract_words q))) = 1) := by
  refine ⟨by rw [lfs_exact_cache, alookup_cache_put], ?_⟩
  cases hfind : find_pattern (extract_words q) st.patterns with
  | some kp =>
    have h1 : (learn_from_success st q s t1).patterns = st.patterns :=
      lfs_patterns_of_some st q s t1 kp hfind
    constructor
    · rw [lfs_patterns_of_some _ q s t2 kp (by rw [h1]; exact hfind), h1]
    · intro _ hnone
      exact absurd hnone (by simp)
  | none =>
    by_cases hwe : extract_words q = ∅
    · have h1 : (learn_from_success st q s t1).patterns = st.patterns := by
        rw [lfs_patterns_of_none st q s t1 hfind, learn_from_example, if_pos hwe]
      have h2 : (learn_from_success (learn_from_success st q s t1) q s t2).patterns =
          (learn_from_success st q s t1).patterns := by
        rw [lfs_patterns_of_none _ q s t2 (by rw [h1]; exact hfind), h1,
          learn_from_example, if_pos hwe]
      refine ⟨h2, ?_⟩
      intro hne _
      exact absurd hwe hne
    · by_cases hk : hasKey (extract_words q) st.patterns = true
      · exfalso
        obtain ⟨kv, hm, hkey⟩ := (hasKey_iff _ _).mp hk
        have hwords : kv.2.words = extract_words q := by rw [← hkeys kv hm, hkey]
        have hs : patternScore (extract_words q) kv.2 = 1 :=
          patternScore_of_words_eq (Finset.nonempty_iff_ne_empty.mpr hwe) hwords
        obtain ⟨r, hr⟩ := find_pattern_isSome_of_scored _ st.patterns hwe
          ⟨kv, hm, by rw [hs]; norm_num⟩
        rw [hfind] at hr
        exact absurd hr (by simp)
      · have h1 : (learn_from_success st q s t1).patterns =
            st.patterns ++ [(extract_words q,
              { words := extract_words q, template := generalize_sql s, count := 1,
                examples := [q], source := "success", created_at := t1,
                last_used := some t1 })] := by
          rw [lfs_patterns_of_none st q s t1 hfind, learn_from_example, if_neg hwe, if_neg hk]
        obtain ⟨r, hr⟩ : ∃ r, find_pattern (extract_words q)
            (learn_from_success st q s t1).patterns = some r := by
          apply find_pattern_isSome_of_scored _ _ hwe
          refine ⟨_, by rw [h1]; exact List.mem_append_right _ (List.mem_cons_self _ _), ?_⟩
          rw [patternScore_of_words_eq (Finset.nonempty_iff_ne_empty.mpr hwe) rfl]
          norm_num
        have h2 : (learn_from_success (learn_from_success st q s t1) q s t2).patterns =
            (learn_from_success st q s t1).patterns :=
          lfs_patterns_of_some _ q s t2 r hr
        refine ⟨h2, ?_⟩
        intro _ _
        rw [h2, h1, List.countP_append]
        have hz : st.patterns.countP (fun kv => decide (kv.1 = extract_words q)) = 0 := by
          apply List.countP_eq_zero.mpr
          intro kv hm
          simp only [decide_eq_true_eq]
          intro hkey
          exact hk ((hasKey_iff _ _).mpr ⟨kv, hm, hkey⟩)
        rw [hz]
        simp

/-- C4 witness. -/
theorem c4_witness :
    alookup ("Сколько всего видео?".data)
      (learn_from_success (learn_from_success emptyState ("Сколько всего видео?".data)
          ("SELECT COUNT(*) FROM videos".data) 0) ("Сколько всего видео?".data)
        ("SELECT COUNT(*) FROM videos".data) 1).exact_cache =
      some ("SELECT COUNT(*) FROM videos".data) ∧
    (learn_from_success (learn_from_success emptyState ("Сколько всего видео?".data)
          ("SELECT COUNT(*) FROM videos".data) 0) ("Сколько всего видео?".data)
        ("SELECT COUNT(*) FROM videos".data) 1).patterns =
      (learn_from_success emptyState ("Сколько всего видео?".data)
        ("SELECT COUNT(*) FROM videos".data) 0).patterns ∧
    (extract_words ("Сколько всего видео?".data) ≠ ∅ →
      find_pattern (extract_words ("Сколько всего видео?".data)) emptyState.patterns = none →
      ((learn_from_success (learn_from_success emptyState ("Сколько всего видео?".data)
            ("SELECT COUNT(*) FROM videos".data) 0) ("Сколько всего видео?".data)
          ("SELECT COUNT(*) FROM videos".data) 1).patterns.countP
        (fun kv => decide (kv.1 = extract_words ("Сколько всего видео?".data)))) = 1) :=
  c4_learn_idempotent emptyState ("Сколько всего видео?".data)
    ("SELECT COUNT(*) FROM videos".data) 0 1 (by simp [emptyState])

/-- C5.  Scoring and acceptance of `_find_pattern`: an empty feature set, or
one sharing no word with any stored pattern, never yields a hit; a pattern
whose trigger words are exactly covered by the feature set (mutual
inclusion) scores `1`; the score is `coverage * 0.6 + recall * 0.4`; and any
returned candidate scores strictly above `0.5`. -/
theorem c5_scoring :
    (∀ (w : Finset Str) (ps : List (PKey × Pattern)),
        (w = ∅ ∨ ∀ kv ∈ ps, w ∩ kv.2.words = ∅) → find_pattern w ps = none) ∧
    (∀ (w : Finset Str) (p : Pattern), w.Nonempty → p.words ⊆ w → w ⊆ p.words →
        patternScore w p = 1) ∧
    (∀ (w : Finset Str) (p : Pattern),
        patternScore w p = coverage w p * 0.6 + recallQ w p * 0.4) ∧
    (∀ (w : Finset Str) (ps : List (PKey × Pattern)) (kp : PKey × Pattern),
        find_pattern w ps = some kp → (0.5 : ℚ) < patternScore w kp.2) := by
  refine ⟨?_, ?_, fun _ _ => rfl, ?_⟩
  · intro w ps h
    unfold find_pattern
    rcases h with h | h
    · rw [if_pos h]
    · by_cases hw : w = ∅
      · rw [if_pos hw]
      · rw [if_neg hw]
        exact find_patternGo_skip w ps none 0 h
  · intro w p hne h1 h2
    exact patternScore_of_words_eq hne (Finset.Subset.antisymm h1 h2)
  · intro w ps kp h
    obtain ⟨_, _, _, h05, _⟩ := find_pattern_spec w ps kp h
    exact h05

theorem find_pattern_p5_eval :
    find_pattern ({"aa".data} : Finset Str) [(p5.words, p5)] = some (p5.words, p5) := by
  have hs : patternScore ({"aa".data} : Finset Str) p5 = 1 :=
    patternScore_of_words_eq (by decide) (by decide)
  unfold find_pattern
  rw [if_neg (by decide)]
  show find_patternGo _ _ _ _ = _
  unfold find_patternGo
  rw [if_neg (by decide)]
  simp only [hs]
  rw [if_pos (by norm_num)]
  rfl

/-- C5 witness. -/
theorem c5_witness :
    find_pattern ({"aa".data} : Finset Str) [(p5b.words, p5b)] = none ∧
    patternScore ({"aa".data} : Finset Str) p5 = 1 ∧
    (0.5 : ℚ) < patternScore ({"aa".data} : Finset Str) p5 :=
  ⟨c5_scoring.1 _ _ (Or.inr (by decide)),
   c5_scoring.2.1 _ p5 (by decide) (by decide) (by decide),
   c5_scoring.2.2.2 _ [(p5.words, p5)] (p5.words, p5) find_pattern_p5_eval⟩

theorem patternScore_p6a : patternScore w6 p6a = 13 / 15 := by
  have h1 : ((w6 ∩ p6a.words).card : ℚ) = 2 := by norm_num [show (w6 ∩ p6a.words).card = 2 from by decide]
  have h2 : (p6a.words.card : ℚ) = 2 := by norm_num [show p6a.words.card = 2 from by decide]
  have h3 : (w6.card : ℚ) = 3 := by norm_num [show w6.card = 3 from by decide]
  unfold patternScore coverage recallQ
  rw [if_neg (by decide : ¬(w6 = ∅)), h1, h2, h3]
  norm_num

theorem patternScore_p6b : patternScore w6 p6b = 13 / 15 := by
  have h1 : ((w6 ∩ p6b.words).card : ℚ) = 2 := by norm_num [show (w6 ∩ p6b.words).card = 2 from by decide]
  have h2 : (p6b.words.card : ℚ) = 2 := by norm_num [show p6b.words.card = 2 from by decide]
  have h3 : (w6.card : ℚ) = 3 := by norm_num [show w6.card = 3 from by decide]
  unfold patternScore coverage recallQ
  rw [if_neg (by decide : ¬(w6 = ∅)), h1, h2, h3]
  norm_num

theorem c6_find_eval : find_pattern w6 ps6 = some (p6a.words, p6a) := by
  unfold find_pattern
  rw [if_neg (by decide : ¬(w6 = ∅))]
  show find_patternGo w6 [(p6a.words, p6a), (p6b.words, p6b)] none 0 = _
  unfold find_patternGo
  rw [if_neg (by decide : ¬(w6 ∩ (p6a.words, p6a).2.words = ∅))]
  simp only [patternScore_p6a]
  rw [if_pos (by norm_num : (0 : ℚ) < 13 / 15 ∧ (0.5 : ℚ) < 13 / 15)]
  unfold find_patternGo
  rw [if_neg (by decide : ¬(w6 ∩ (p6b.words, p6b).2.words = ∅))]
  simp only [patternScore_p6b]
  rw [if_neg (by norm_num : ¬((13 : ℚ) / 15 < 13 / 15 ∧ (0.5 : ℚ) < 13 / 15))]
  rfl

/-- C6 counterexample.  Two stored patterns attain the same maximal accepted
score for this feature set; `_find_pattern` returns the *first* one in dict
order even though the second has the more recent `last_used` timestamp, so
the claimed recency tie-break does not exist. -/
theorem c6_counterexample :
    find_pattern w6 ps6 = some (p6a.words, p6a) ∧
    patternScore w6 p6a = patternScore w6 p6b ∧
    (0.5 : ℚ) < patternScore w6 p6a ∧
    p6a.last_used = some 1 ∧ p6b.last_used = some 100 ∧
    (p6a.words, p6a) ≠ (p6b.words, p6b) := by
  refine ⟨c6_find_eval, ?_, ?_, rfl, rfl, by decide⟩
  · rw [patternScore_p6a, patternScore_p6b]
  · rw [patternScore_p6a]; norm_num

/-- C6 (amended).  Among candidates scoring above `0.5`, `_find_pattern`
returns a pattern of maximal score, and among equal maximal scores the one
*earliest in the store's insertion order* — every earlier pattern scores
strictly less; `last_used_at` plays no role. -/
theorem c6_first_of_maximal (w : Finset Str) (ps : List (PKey × Pattern))
    (kp : PKey × Pattern) (h : find_pattern w ps = some kp) :
    ∃ pre post, ps = pre ++ kp :: post ∧ (0.5 : ℚ) < patternScore w kp.2 ∧
      (∀ kv ∈ pre, patternScore w kv.2 < patternScore w kp.2) ∧
      (∀ kv ∈ post, patternScore w kv.2 ≤ patternScore w kp.2) :=
  find_pattern_spec w ps kp h

/-- C6 witness. -/
theorem c6_witness :
    ∃ pre post, ps6 = pre ++ (p6a.words, p6a) :: post ∧
      (0.5 : ℚ) < patternScore w6 (p6a.words, p6a).2 ∧
      (∀ kv ∈ pre, patternScore w6 kv.2 < patternScore w6 (p6a.words, p6a).2) ∧
      (∀ kv ∈ post, patternScore w6 kv.2 ≤ patternScore w6 (p6a.words, p6a).2) :=
  c6_first_of_maximal w6 ps6 (p6a.words, p6a) c6_find_eval

/-! ### C2 -/

theorem c2_find_eval :
    find_pattern (extract_words c2query) c2state.patterns = some (c2pat.words, c2pat) := by
  have hs : patternScore (extract_words c2query) c2pat = 1 :=
    patternScore_of_words_eq (by decide) (by decide)
  unfold find_pattern
  rw [if_neg (by decide : ¬(extract_words c2query = ∅))]
  show find_patternGo _ [(c2pat.words, c2pat)] none 0 = _
  unfold find_patternGo
  rw [if_neg (by decide : ¬(extract_words c2query ∩ (c2pat.words, c2pat).2.words = ∅))]
  simp only [hs]
  rw [if_pos (by norm_num : (0 : ℚ) < 1 ∧ (0.5 : ℚ) < 1)]
  rfl

/-- C2 (refuting the totality claim).  On a question whose date phrase uses
a month word outside the month table, `_extract_parameters` formats the
*string* default `'01'` with the integer format code `02d`, raising
`ValueError`; with a matching pattern in the store the exception escapes
`process_query` instead of resolving to the fallback path. -/
theorem c2_extractor_valueerror :
    (process_query c2state c2query false none).1 = .error formatErr ∧
    extract_parameters c2query = .error formatErr := by
  have hfill : fill_template c2pat.template c2query = .error formatErr := by decide
  constructor
  · unfold process_query
    simp only [show alookup c2query c2state.exact_cache = none from rfl,
      c2_find_eval, hfill]
  · decide

/-! ### C8 -/

theorem lfc_exact_cache (st : ConstructorState) (q l c : Str) (fb : Option Str) (t : ℚ) :
    (learn_from_correction st q l c fb t).exact_cache = cache_put q c st.exact_cache := rfl

/-- Cache effect: `process_query` either leaves the exact cache untouched or write-through
promotes a filled template that passed the no-placeholder guard. -/
theorem pq_exact_cache_cases (st : ConstructorState) (q : Str) (e : Bool) (r : Option LLMRes) :
    (process_query st q e r).2.exact_cache = st.exact_cache ∨
    ∃ sql, lbrace ∉ sql ∧
      (process_query st q e r).2.exact_cache = cache_put q sql st.exact_cache := by
  unfold process_query
  dsimp only
  split
  · left; rfl
  · split
    · split
      · left; rfl
      · split
        · right
          rename_i sql _ h
          exact ⟨sql, h, rfl⟩
        · left; rfl
    · split
      · split
        · split
          · split
            · left; rfl
            · left; rfl
          · left; rfl
        · left; rfl
      · left; rfl

theorem run_op_cache_inv (st : ConstructorState) (op : Op)
    (h : cache_inv st) (hop : op_sql_ok op) : cache_inv (run_op st op) := by
  cases op with
  | proc q e r =>
    intro kv hm
    rw [run_op] at hm
    rcases pq_exact_cache_cases st q e r with hc | ⟨sql, hnb, hc⟩
    · rw [hc] at hm
      exact h kv hm
    · rw [hc] at hm
      rcases mem_cache_put q sql st.exact_cache kv hm with h1 | h2
      · rw [h1]
        exact hnb
      · exact h kv h2
  | learnS q s t =>
    intro kv hm
    rw [run_op, lfs_exact_cache] at hm
    rcases mem_cache_put q s st.exact_cache kv hm with h1 | h2
    · rw [h1]
      exact hop
    · exact h kv h2
  | learnC q l c fb t =>
    intro kv hm
    rw [run_op, lfc_exact_cache] at hm
    rcases mem_cache_put q c st.exact_cache kv hm with h1 | h2
    · rw [h1]
      exact hop
    · exact h kv h2

/-- C8 counterexample.  `learn_from_success` stores its SQL argument in the
exact cache without any validation, so a single call with a
placeholder-bearing SQL leaves a `{` inside a cached value. -/
theorem c8_counterexample :
    alookup ("q".data)
      (learn_from_success emptyState ("q".data) ("SELECT {NUMBER}".data) 0).exact_cache =
      some ("SELECT {NUMBER}".data) ∧
    lbrace ∈ ("SELECT {NUMBER}".data) := by
  decide

/-- C8 (amended).  The no-placeholder invariant of the exact cache holds
after any operation sequence *provided* every SQL handed to
`learn_from_success` / `learn_from_correction` is itself placeholder-free:
`process_query` only promotes SQL that passed its `'{' not in sql` guard,
while the learning entry points store their argument unvalidated. -/
theorem c8_placeholder_invariant (ops : List Op) : ∀ st : ConstructorState, cache_inv st →
    (∀ op ∈ ops, op_sql_ok op) → cache_inv (run_ops st ops) := by
  induction ops with
  | nil =>
    intro st h _
    exact h
  | cons op rest ih =>
    intro st h hops
    show cache_inv (run_ops (run_op st op) rest)
    exact ih _ (run_op_cache_inv st op h (hops op (List.mem_cons_self op rest)))
      (fun o ho => hops o (List.mem_cons_of_mem op ho))

/-- C8 witness. -/
theorem c8_witness :
    cache_inv (run_ops emptyState
      [.learnS ("a".data) ("SELECT 1".data) 0, .proc ("b".data) false none,
       .learnC ("c".data) ("SELECT 2".data) ("SELECT 3".data) none 0]) :=
  c8_placeholder_invariant
    [.learnS ("a".data) ("SELECT 1".data) 0, .proc ("b".data) false none,
     .learnC ("c".data) ("SELECT 2".data) ("SELECT 3".data) none 0]
    emptyState (fun kv hm => absurd hm (List.not_mem_nil kv)) (by decide)

/-! ### C9 -/

theorem optimize_mem_iff (st : ConstructorState) (now : ℚ) (kv : PKey × Pattern) :
    kv ∈ (optimize_patterns st now).patterns ↔
      kv ∈ st.patterns ∧ ¬ shouldEvict now kv := by
  unfold optimize_patterns
  show kv ∈ st.patterns.filter _ ↔ _
  rw [List.mem_filter]
  simp [Bool.not_eq_true', decide_eq_false_iff_not]

/-- C9.  With the hard-coded thresholds (30 days, fewer than 3 hits): a
pattern last used 31 days ago with hit count 1 is evicted; a pattern with
hit count 5 (or more) survives regardless of age; and `optimize_patterns`
keeps each surviving pattern entry whole and unchanged (all-or-nothing
removal, characterized by the membership equivalence). -/
theorem c9_eviction :
    (∀ (st : ConstructorState) (now : ℚ) (k : PKey) (p : Pattern),
        (k, p) ∈ st.patterns → p.count = 1 → p.last_used = some (now - 31) →
        (k, p) ∉ (optimize_patterns st now).patterns) ∧
    (∀ (st : ConstructorState) (now : ℚ) (k : PKey) (p : Pattern),
        (k, p) ∈ st.patterns → 5 ≤ p.count →
        (k, p) ∈ (optimize_patterns st now).patterns) ∧
    (∀ (st : ConstructorState) (now : ℚ) (kv : PKey × Pattern),
        kv ∈ (optimize_patterns st now).patterns ↔
          kv ∈ st.patterns ∧ ¬ shouldEvict now kv) := by
  refine ⟨?_, ?_, fun st now kv => optimize_mem_iff st now kv⟩
  · intro st now k p _ hc hl hmem
    rw [optimize_mem_iff] at hmem
    apply hmem.2
    unfold shouldEvict
    constructor
    · show 30 < Rat.floor (now - (p.last_used.getD 0))
      rw [hl]
      have harith : now - (Option.getD (some (now - 31)) 0) = 31 := by
        rw [Option.getD_some]
        ring
      rw [harith]
      decide
    · show p.count < 3
      rw [hc]
      decide
  · intro st now k p hm hc
    rw [optimize_mem_iff]
    refine ⟨hm, ?_⟩
    intro hev
    unfold shouldEvict at hev
    have h3 : p.count < 3 := hev.2
    omega

/-- C9 witness. -/
theorem c9_witness :
    (p9a.words, p9a) ∉ (optimize_patterns st9 31).patterns ∧
    (p9b.words, p9b) ∈ (optimize_patterns st9 31).patterns :=
  ⟨c9_eviction.1 st9 31 p9a.words p9a (by decide) (by decide) (by simp [p9a]),
   c9_eviction.2.1 st9 31 p9b.words p9b (by decide) (by decide)⟩

/-! ### C10 -/

theorem preload_step_mem (now : ℚ) (ps : List (PKey × Pattern)) (qs : Str × Str)
    (kv : PKey × Pattern) (h : kv ∈ preload_step now ps qs) :
    kv ∈ ps ∨ (kv.2.count = 0 ∧ kv.2.last_used = none ∧ kv.2.source = "schema_preload") := by
  unfold preload_step at h
  by_cases hk : hasKey (extract_words qs.1) ps = true
  · rw [if_pos hk] at h
    exact Or.inl h
  · rw [if_neg hk] at h
    rcases List.mem_append.mp h with h1 | h2
    · exact Or.inl h1
    · right
      have : kv = (extract_words qs.1,
          { words := extract_words qs.1, template := qs.2, count := 0, examples := [],
            source := "schema_preload", created_at := now, last_used := none }) := by
        simpa using h2
      rw [this]
      exact ⟨rfl, rfl, rfl⟩

theorem preload_foldl_mem (now : ℚ) (seeds : List (Str × Str)) :
    ∀ (ps : List (PKey × Pattern)) (kv : PKey × Pattern),
      kv ∈ seeds.foldl (preload_step now) ps →
      kv ∈ ps ∨ (kv.2.count = 0 ∧ kv.2.last_used = none ∧ kv.2.source = "schema_preload") := by
  induction seeds with
  | nil =>
    intro ps kv h
    exact Or.inl h
  | cons qs rest ih =>
    intro ps kv h
    rw [List.foldl_cons] at h
    rcases ih (preload_step now ps qs) kv h with h1 | h2
    · exact preload_step_mem now ps qs kv h1
    · exact Or.inr h2

theorem preload_mem (now : ℚ) (st : ConstructorState) (kv : PKey × Pattern)
    (h : kv ∈ (preload_basic_patterns now st).patterns) :
    kv ∈ st.patterns ∨
      (kv.2.count = 0 ∧ kv.2.last_used = none ∧ kv.2.source = "schema_preload") :=
  preload_foldl_mem now basic_patterns st.patterns kv h

theorem optimize_all_evicted (st : ConstructorState) (now : ℚ) (h30 : 30 < Rat.floor now)
    (h : ∀ kv ∈ st.patterns, kv.2.last_used = none ∧ kv.2.count < 3) :
    (optimize_patterns st now).patterns = [] := by
  unfold optimize_patterns
  show st.patterns.filter _ = []
  rw [List.filter_eq_nil_iff]
  intro kv hm
  obtain ⟨hl, hc⟩ := h kv hm
  simp only [Bool.not_eq_true', decide_eq_false_iff_not, not_not]
  unfold shouldEvict
  rw [hl]
  exact ⟨by rw [Option.getD_none, sub_zero]; exact h30, hc⟩

/-- C10.  Every pattern that `_preload_basic_patterns` adds is created with
`count = 0` and no `last_used` field; `optimize_patterns` reads a missing
`last_used` as 2000-01-01, so at any present-day time (strictly more than
30 days after 2000-01-01) the first optimization pass deletes every
never-matched preloaded pattern, whatever its `created_at`. -/
theorem c10_preload_unused_evicted :
    (∀ (now : ℚ) (st : ConstructorState) (kv : PKey × Pattern),
        kv ∈ (preload_basic_patterns now st).patterns → kv ∉ st.patterns →
        kv.2.count = 0 ∧ kv.2.last_used = none ∧ kv.2.source = "schema_preload") ∧
    (∀ (created now : ℚ), 30 < Rat.floor now →
        (optimize_patterns (preload_basic_patterns created emptyState) now).patterns = []) := by
  constructor
  · intro now st kv h hn
    rcases preload_mem now st kv h with h1 | h2
    · exact absurd h1 hn
    · exact h2
  · intro created now h30
    apply optimize_all_evicted _ now h30
    intro kv hm
    rcases preload_mem created emptyState kv hm with h1 | h2
    · exact absurd h1 (List.not_mem_nil kv)
    · exact ⟨h2.2.1, by rw [h2.1]; decide⟩

/-- C10 witness. -/
theorem c10_witness :
    (optimize_patterns (preload_basic_patterns 50 emptyState) 100).patterns = [] :=
  c10_preload_unused_evicted.2 50 100 (by decide)

end TrainableSql
